import Mathlib

set_option maxRecDepth 8000

/-
Verification of the WebRelease template language validator
(src/server/parser.py) via a shallow embedding in Lean.

The document and every expression are modelled as lists of characters;
character classes are the ASCII restrictions of the Python predicates.
Mutable parser state becomes explicit state passing, and a raised
ValueError becomes the err branch of the PR type, which carries the
parser state at the raise point (the Python object keeps its mutated
fields when an exception propagates).  General recursion of the
recursive-descent grammar is bounded by an explicit fuel parameter
playing the role of the Python recursion limit; fuel exhaustion is
reported as an error, exactly as a RecursionError raised inside
parse_expression would be caught by the try block of parse.
-/

namespace WR

/-- Characters accepted by the Python str.isspace test, restricted to ASCII. -/
def pyIsSpace (c : Char) : Bool :=
  c = ' ' || c = '\t' || c = '\n' || c = '\r' || c = '\x0B' || c = '\x0C'

/-- Characters matched by the regex word class and by the identifier test
(isalnum or underscore) of line 252, restricted to ASCII. -/
def isWordChar (c : Char) : Bool := c.isAlphanum || c = '_'

/-- Length of the longest run of characters satisfying p at the head of the list. -/
def runLen (p : Char → Bool) : List Char → Nat
  | [] => 0
  | c :: rest => if p c then runLen p rest + 1 else 0

/-- Python str.strip: remove whitespace from both ends (line 92). -/
def pyStrip (l : List Char) : List Char :=
  ((l.dropWhile pyIsSpace).reverse.dropWhile pyIsSpace).reverse

/-- Recognized built-in function names, lines 72-78.  The validator stores this
table but never consults it; it is reproduced for completeness. -/
def BUILT_IN_FUNCTIONS : List String :=
  ["pageTitle", "currentTime", "formatDate", "isNull", "isNotNull", "isNumber",
   "number", "string", "divide", "setScale", "length", "substring", "indexOf",
   "contains", "startsWith", "endsWith", "toUpperCase", "toLowerCase", "trim",
   "replace", "split", "join", "round", "floor", "ceil", "abs", "min", "max",
   "unsplit", "generatePrice", "generateBenefit", "generateBakuage"]

/-- Operator table, lines 81-84; also unused by the validation logic. -/
def OPERATORS : List String :=
  ["==", "!=", "<", "<=", ">", ">=", "&&", "||", "!", "+", "-", "*", "/", "%"]

/-- Functions that may only be called on single elements, lines 87-89. -/
def SINGLE_ELEMENT_FUNCTIONS : List String :=
  ["selectedValue", "selectedName", "selected"]

/-- Mutable state of ExpressionParser (lines 91-96): the stripped expression,
the list-element context, the accumulated (position, message) semantic errors
and the cursor position.  The loop-variable set is stored by the constructor
but never read by any method, so it is not carried here. -/
structure EPState where
  expr : List Char
  listElements : List String
  errors : List (Nat × String)
  pos : Nat
deriving DecidableEq

/-- Outcome of one parsing method: return normally or raise ValueError.
Both branches carry the parser state, because the Python object keeps its
mutated fields when an exception propagates. -/
inductive PR (α : Type) where
  | ok : α → EPState → PR α
  | err : String → EPState → PR α
deriving DecidableEq

def PR.bind {α β : Type} : PR α → (α → EPState → PR β) → PR β
  | .ok a st, f => f a st
  | .err m st, _ => .err m st

/-- Message reported when the fuel bound is hit; stands for the Python
RecursionError, which the except clause of parse would catch like any
other exception. -/
def fuelMsg : String := "maximum recursion depth exceeded"

/-- Method skip_whitespace, lines 319-322. -/
def skipWs (st : EPState) : EPState :=
  { st with pos := st.pos + runLen pyIsSpace (st.expr.drop st.pos) }

/-- Method match for a single character, lines 289-295. -/
def matchCh (c : Char) (st : EPState) : Bool × EPState :=
  let st := skipWs st
  match st.expr.get? st.pos with
  | some d => if d = c then (true, { st with pos := st.pos + 1 }) else (false, st)
  | none => (false, st)

/-- Method match_operator, lines 297-303: compare the slice starting at the
cursor with the operator spelling.  A slice truncated by the end of the
expression never equals the nonempty spelling, which also covers the explicit
bounds test of line 300. -/
def matchOperator (op : String) (st : EPState) : Bool × EPState :=
  let st := skipWs st
  if (st.expr.drop st.pos).take op.toList.length = op.toList then
    (true, { st with pos := st.pos + op.toList.length })
  else (false, st)

/-- Stable insertion used to model the Python sorted call with a length key in
descending order. -/
def insertLenDesc (s : String) : List String → List String
  | [] => [s]
  | t :: ts => if s.length ≤ t.length then t :: insertLenDesc s ts else s :: t :: ts

/-- Python sorted with key len and reverse set: descending by length, stable
among equal lengths (line 307). -/
def sortByLenDesc (l : List String) : List String :=
  l.foldl (fun acc s => insertLenDesc s acc) []

/-- Try the candidate spellings in order; each failed attempt still skips
leading whitespace, as each match_operator call does. -/
def matchFirstOp : List String → EPState → Bool × EPState
  | [], st => (false, st)
  | op :: rest, st =>
    let (b, st) := matchOperator op st
    if b then (true, st) else matchFirstOp rest st

/-- Method match_any_operator, lines 305-310: longest spellings first. -/
def matchAnyOperator (ops : List String) (st : EPState) : Bool × EPState :=
  matchFirstOp (sortByLenDesc ops) st

def expectMsg (c : Char) (p : Nat) : String :=
  "Expected '" ++ String.mk [c] ++ "' at position " ++ toString p

/-- Method expect, lines 312-317. -/
def expectCh (c : Char) (st : EPState) : PR Unit :=
  let st := skipWs st
  match st.expr.get? st.pos with
  | some d =>
    if d = c then .ok () { st with pos := st.pos + 1 } else .err (expectMsg c st.pos) st
  | none => .err (expectMsg c st.pos) st

def identMsg (p : Nat) : String := "Expected identifier at position " ++ toString p

/-- Method parse_identifier, lines 248-260: a maximal nonempty run of word
characters, or ValueError. -/
def parseIdentifier (st : EPState) : PR String :=
  let st := skipWs st
  match st.expr.get? st.pos with
  | some c =>
    if isWordChar c then
      let n := runLen isWordChar (st.expr.drop st.pos)
      .ok (String.mk ((st.expr.drop st.pos).take n)) { st with pos := st.pos + n }
    else .err (identMsg st.pos) st
  | none => .err (identMsg st.pos) st

/-- Number of characters consumed by the scanning loop of
parse_string_literal, lines 276-281: advance to the closing double quote,
a backslash escaping the following character when one exists. -/
def stringBodyLen : List Char → Nat
  | [] => 0
  | [c] => if c = '"' then 0 else 1
  | c :: d :: rest =>
    if c = '"' then 0
    else if c = '\\' then 2 + stringBodyLen rest
    else 1 + stringBodyLen (d :: rest)

/-- Method parse_string_literal, lines 272-282. -/
def parseStringLit (st : EPState) : PR Unit :=
  (expectCh '"' st).bind fun _ st =>
    expectCh '"' { st with pos := st.pos + stringBodyLen (st.expr.drop st.pos) }

/-- Method parse_number_literal, lines 284-287: a run of digits and dots. -/
def parseNumberLit (st : EPState) : EPState :=
  { st with pos := st.pos + runLen (fun c => c.isDigit || c = '.') (st.expr.drop st.pos) }

/-- Python split on a dot, line 209. -/
def splitOnDot : List Char → List (List Char)
  | [] => [[]]
  | c :: rest =>
    match splitOnDot rest with
    | [] => [[c]]
    | g :: gs => if c = '.' then [] :: g :: gs else (c :: g) :: gs

/-- Python join with a dot separator, lines 174 and 211. -/
def joinDot : List String → String
  | [] => ""
  | [s] => s
  | s :: rest => s ++ "." ++ joinDot rest

def listMsg1 (funcName elementPath : String) : String :=
  "Cannot call '" ++ funcName ++ "()' on list element '" ++ elementPath ++
    "'. Use a loop variable instead."

def listMsg2 (funcName pre : String) : String :=
  "Cannot call '" ++ funcName ++ "()' on list element '" ++ pre ++
    "'. Use a loop variable to iterate over the list first."

/-- Prefix scan of check_list_function_call, lines 208-221: the dotted joins
of the nonempty leading segment lists of the path, shortest first, searched
for the first one declared as a list element. -/
def firstListPrefix (les : List String) (parts : List String) : Option String :=
  ((List.range parts.length).map fun i => joinDot (parts.take (i + 1))).find?
    fun p => les.contains p

/-- Method check_list_function_call, lines 196-221.  At most one semantic
error is appended, carrying the cursor position at the time of the check. -/
def checkListFunctionCall (elementPath funcName : String) (st : EPState) : EPState :=
  if st.listElements.contains elementPath then
    { st with errors := st.errors ++ [(st.pos, listMsg1 funcName elementPath)] }
  else
    match firstListPrefix st.listElements ((splitOnDot elementPath.toList).map String.mk) with
    | some pre => { st with errors := st.errors ++ [(st.pos, listMsg2 funcName pre)] }
    | none => st

/-- Call bookkeeping of parse_postfix_expression, lines 166 and 170-176:
after a completed call, a single-element function whose receiver chain
(the chain including the called name) has more than one entry is checked
against the list-element context; the receiver path is the dotted join of
the chain without its trailing entry. -/
def handleCall (chain : List String) (st : EPState) : EPState :=
  match chain.getLast? with
  | none => st
  | some funcName =>
    if SINGLE_ELEMENT_FUNCTIONS.contains funcName then
      if 1 < chain.length then
        checkListFunctionCall (joinDot chain.dropLast) funcName st
      else st
    else st

/-- Operator tiers of the grammar, lines 124, 130, 136, 142 and 148. -/
def comparisonOps : List String := ["==", "!=", "<", "<=", ">", ">="]

def additiveOps : List String := ["+", "-"]

def multiplicativeOps : List String := ["*", "/", "%"]

mutual

/-- Method parse_expression, lines 117-119. -/
def parseExprF : Nat → EPState → PR Unit
  | 0, st => .err fuelMsg st
  | fuel + 1, st => parseOrF fuel st

/-- Method parse_or_expression, lines 121-125. -/
def parseOrF : Nat → EPState → PR Unit
  | 0, st => .err fuelMsg st
  | fuel + 1, st => (parseAndF fuel st).bind fun _ st => orLoopF fuel st

def orLoopF : Nat → EPState → PR Unit
  | 0, st => .err fuelMsg st
  | fuel + 1, st =>
    let (b, st) := matchOperator "||" st
    if b then (parseAndF fuel st).bind fun _ st => orLoopF fuel st
    else .ok () st

/-- Method parse_and_expression, lines 127-131. -/
def parseAndF : Nat → EPState → PR Unit
  | 0, st => .err fuelMsg st
  | fuel + 1, st => (parseCmpF fuel st).bind fun _ st => andLoopF fuel st

def andLoopF : Nat → EPState → PR Unit
  | 0, st => .err fuelMsg st
  | fuel + 1, st =>
    let (b, st) := matchOperator "&&" st
    if b then (parseCmpF fuel st).bind fun _ st => andLoopF fuel st
    else .ok () st

/-- Method parse_comparison_expression, lines 133-137. -/
def parseCmpF : Nat → EPState → PR Unit
  | 0, st => .err fuelMsg st
  | fuel + 1, st => (parseAddF fuel st).bind fun _ st => cmpLoopF fuel st

def cmpLoopF : Nat → EPState → PR Unit
  | 0, st => .err fuelMsg st
  | fuel + 1, st =>
    let (b, st) := matchAnyOperator comparisonOps st
    if b then (parseAddF fuel st).bind fun _ st => cmpLoopF fuel st
    else .ok () st

/-- Method parse_additive_expression, lines 139-143. -/
def parseAddF : Nat → EPState → PR Unit
  | 0, st => .err fuelMsg st
  | fuel + 1, st => (parseMulF fuel st).bind fun _ st => addLoopF fuel st

def addLoopF : Nat → EPState → PR Unit
  | 0, st => .err fuelMsg st
  | fuel + 1, st =>
    let (b, st) := matchAnyOperator additiveOps st
    if b then (parseMulF fuel st).bind fun _ st => addLoopF fuel st
    else .ok () st

/-- Method parse_multiplicative_expression, lines 145-149. -/
def parseMulF : Nat → EPState → PR Unit
  | 0, st => .err fuelMsg st
  | fuel + 1, st => (parseUnaryF fuel st).bind fun _ st => mulLoopF fuel st

def mulLoopF : Nat → EPState → PR Unit
  | 0, st => .err fuelMsg st
  | fuel + 1, st =>
    let (b, st) := matchAnyOperator multiplicativeOps st
    if b then (parseUnaryF fuel st).bind fun _ st => mulLoopF fuel st
    else .ok () st

/-- Method parse_unary_expression, lines 151-156. -/
def parseUnaryF : Nat → EPState → PR Unit
  | 0, st => .err fuelMsg st
  | fuel + 1, st =>
    let (b, st) := matchOperator "!" st
    if b then parseUnaryF fuel st
    else (postfixF fuel st).bind fun _ st => .ok () st

/-- Method parse_postfix_expression, lines 158-194: a primary expression
followed by call, index and member postfix operators, tracking the element
chain. -/
def postfixF : Nat → EPState → PR (List String)
  | 0, st => .err fuelMsg st
  | fuel + 1, st =>
    (primaryF fuel st).bind fun base st =>
      postfixLoopF fuel (match base with | some b => [b] | none => []) st

def postfixLoopF : Nat → List String → EPState → PR (List String)
  | 0, _, st => .err fuelMsg st
  | fuel + 1, chain, st =>
    let (b, st) := matchCh '(' st
    if b then
      (parseArgsF fuel st).bind fun _ st =>
      (expectCh ')' st).bind fun _ st =>
      postfixLoopF fuel [] (handleCall chain st)
    else
      let (b, st) := matchCh '[' st
      if b then
        (parseExprF fuel st).bind fun _ st =>
        (expectCh ']' st).bind fun _ st =>
        postfixLoopF fuel [] st
      else
        let (b, st) := matchCh '.' st
        if b then
          (parseIdentifier st).bind fun member st =>
            postfixLoopF fuel (if member ≠ "" then chain ++ [member] else chain) st
        else .ok chain st

/-- Method parse_primary_expression, lines 223-246. -/
def primaryF : Nat → EPState → PR (Option String)
  | 0, st => .err fuelMsg st
  | fuel + 1, st =>
    let st := skipWs st
    match st.expr.get? st.pos with
    | none => .err "Unexpected end of expression" st
    | some c =>
      if c = '"' then (parseStringLit st).bind fun _ st => .ok none st
      else if c.isDigit then .ok none (parseNumberLit st)
      else if c = '(' then
        let (_, st) := matchCh '(' st
        (parseExprF fuel st).bind fun _ st =>
        (expectCh ')' st).bind fun _ st => .ok none st
      else (parseIdentifier st).bind fun id st => .ok (some id) st

/-- Method parse_function_arguments, lines 262-270. -/
def parseArgsF : Nat → EPState → PR Unit
  | 0, st => .err fuelMsg st
  | fuel + 1, st =>
    let st := skipWs st
    match st.expr.get? st.pos with
    | some c =>
      if c ≠ ')' then (parseExprF fuel st).bind fun _ st => argsLoopF fuel st
      else .ok () st
    | none => .ok () st

def argsLoopF : Nat → EPState → PR Unit
  | 0, st => .err fuelMsg st
  | fuel + 1, st =>
    let (b, st) := matchCh ',' st
    if b then (parseExprF fuel st).bind fun _ st => argsLoopF fuel st
    else .ok () st

end

/-- Fuel budget for one expression parse; generous enough for the grammar to
behave exactly like the unbounded Python recursion on every expression whose
nesting the Python recursion limit would accept. -/
def exprFuel (e : List Char) : Nat := 16 * e.length + 16

/-- Constructor of ExpressionParser, lines 91-96. -/
def initEPState (expression : String) (les : List String) : EPState :=
  { expr := pyStrip expression.toList, listElements := les, errors := [], pos := 0 }

/-- Observable outcome of ExpressionParser: the pair returned by parse
(lines 98-111) together with the error list returned by get_errors
(lines 113-115). -/
structure ExprOutcome where
  isValid : Bool
  errMsg : Option String
  errors : List (Nat × String)
deriving DecidableEq

/-- Method parse, lines 98-111, combined with get_errors: an empty stripped
expression is accepted outright; a raised error is caught and reported as the
message; otherwise the first collected semantic error, if any, invalidates
the expression. -/
def runExpressionParser (expression : String) (les : List String) : ExprOutcome :=
  let st0 := initEPState expression les
  if st0.expr.isEmpty then { isValid := true, errMsg := none, errors := [] }
  else
    match parseExprF (exprFuel st0.expr) st0 with
    | .ok _ st =>
      match st.errors with
      | [] => { isValid := true, errMsg := none, errors := [] }
      | (p, m) :: rest => { isValid := false, errMsg := some m, errors := (p, m) :: rest }
    | .err m st => { isValid := false, errMsg := some m, errors := st.errors }

/-- Structural parse failure of one expression: the recursive descent raised,
as opposed to merely collecting semantic errors.  An empty stripped
expression never reaches the grammar (line 102). -/
def structuralFailureB (expression : String) (les : List String) : Bool :=
  let st0 := initEPState expression les
  if st0.expr.isEmpty then false
  else
    match parseExprF (exprFuel st0.expr) st0 with
    | .ok _ _ => false
    | .err _ _ => true

example : (runExpressionParser "1 + 2" []).isValid = true := by decide

example : (runExpressionParser "a>=b" []).isValid = true := by decide

example : (runExpressionParser "a+" []).isValid = false := by decide

example :
    (runExpressionParser "items.selectedValue()" ["items"]).errors =
      [(21, listMsg1 "selectedValue" "items")] := by decide

/-! Template side: the diagnostic model, the regex scanners and the four
validation passes of TemplateParser (lines 325-626). -/

/-- Line and column position, lines 45-49. -/
structure Position where
  line : Nat
  character : Nat
deriving DecidableEq

/-- Document range, lines 52-56.  The second field is named end in the
source; end is reserved in Lean. -/
structure Range where
  start : Position
  endPos : Position
deriving DecidableEq

/-- Diagnostic record, lines 59-65. -/
structure Diagnostic where
  range : Range
  severity : Nat
  message : String
  code : Option String
deriving DecidableEq

/-- Method get_line_column, lines 615-626: count newlines and the run since
the last newline over the characters before the clamped offset.  The offset
is an integer because one caller passes a regex group offset that can be the
Python no-match value, a negative number; the Python loop over
range(min(pos, len)) is then empty, which the toNat clamp reproduces. -/
def getLineColumn (content : List Char) (pos : Int) : Nat × Nat :=
  (content.take pos.toNat).foldl
    (fun lc c => if c = '\n' then (lc.1 + 1, 0) else (lc.1, lc.2 + 1)) (0, 0)

/-- Split a list at the first character satisfying p: the characters before
it, and the remainder after it when it exists. -/
def breakAtP (p : Char → Bool) : List Char → List Char × Option (List Char)
  | [] => ([], none)
  | c :: rest =>
    if p c then ([], some rest)
    else
      let (b, r) := breakAtP p rest
      (c :: b, r)

/-- Maximal run of word characters at the head, and the remainder. -/
def wordRun (l : List Char) : List Char × List Char :=
  (l.take (runLen isWordChar l), l.drop (runLen isWordChar l))

/-- Generic finditer driver: scan left to right, at each offset try the
matcher, emit the payload and resume after the consumed characters on
success, advance one character on failure.  Every matcher below consumes at
least one character on success.  The fuel is structural bookkeeping only; the
driver is always run with fuel exceeding the list length, and each step
consumes fuel one for one with at least one character. -/
def finditerF {α : Type} (m : List Char → Option (α × Nat)) :
    Nat → List Char → Nat → List (Nat × α)
  | 0, _, _ => []
  | _ + 1, [], _ => []
  | fuel + 1, c :: rest, off =>
    match m (c :: rest) with
    | some (a, n) => (off, a) :: finditerF m fuel (rest.drop (n - 1)) (off + n)
    | none => finditerF m fuel rest (off + 1)

def finditer {α : Type} (m : List Char → Option (α × Nat)) (l : List Char)
    (off : Nat) : List (Nat × α) :=
  finditerF m (l.length + 1) l off

/-- Matcher for one expression span (regex percent, non-percent run, percent
of line 408): payload is the enclosed run, consumption runs through the
closing percent sign. -/
def matchSpan (l : List Char) : Option (List Char × Nat) :=
  match l with
  | '%' :: rest =>
    match breakAtP (fun c => c = '%') rest with
    | (run, some _) => some (run, run.length + 2)
    | (_, none) => none
  | _ => none

/-- Matcher for an opening tag occurrence (regex of line 456): the literal
tag prefix, a nonempty word run, then everything up to and including the
first closing angle bracket.  Payload is the word run and the attribute
text. -/
def matchTag (l : List Char) : Option ((List Char × List Char) × Nat) :=
  match l with
  | '<' :: 'w' :: 'r' :: '-' :: rest =>
    let (w, rest2) := wordRun rest
    if w.isEmpty then none
    else
      match breakAtP (fun c => c = '>') rest2 with
      | (attrs, some _) => some ((w, attrs), 4 + w.length + attrs.length + 1)
      | (_, none) => none
  | _ => none

/-- Matcher for the list-collecting pass (regex of line 388): the literal
wr-for opening, at least one whitespace character, then the attribute text up
to the first closing angle bracket. -/
def matchWrFor (l : List Char) : Option (List Char × Nat) :=
  match l with
  | '<' :: 'w' :: 'r' :: '-' :: 'f' :: 'o' :: 'r' :: rest =>
    let sp := runLen pyIsSpace rest
    if sp = 0 then none
    else
      match breakAtP (fun c => c = '>') (rest.drop sp) with
      | (attrs, some _) => some (attrs, 7 + sp + attrs.length + 1)
      | (_, none) => none
  | _ => none

/-- Matcher for one attribute (regex of line 484): a word run, an equals
sign, a quoted value; the single-quote alternative is tried first, exactly as
the regex alternation does.  Payload is the name, the value and whether the
single-quote branch matched. -/
def matchAttrAt (l : List Char) : Option ((List Char × List Char × Bool) × Nat) :=
  let (w, rest) := wordRun l
  if w.isEmpty then none
  else
    match rest with
    | '=' :: '\'' :: rest2 =>
      match breakAtP (fun c => c = '\'') rest2 with
      | (v, some _) => some ((w, v, true), w.length + 2 + v.length + 1)
      | (_, none) => none
    | '=' :: '"' :: rest2 =>
      match breakAtP (fun c => c = '"') rest2 with
      | (v, some _) => some ((w, v, false), w.length + 2 + v.length + 1)
      | (_, none) => none
    | _ => none

/-- Matcher for an opening closure event (regex of line 550): the tag prefix,
a nonempty word run, then one whitespace character or a closing angle
bracket. -/
def matchOpenEvent (l : List Char) : Option (List Char × Nat) :=
  match l with
  | '<' :: 'w' :: 'r' :: '-' :: rest =>
    let (w, rest2) := wordRun rest
    if w.isEmpty then none
    else
      match rest2 with
      | c :: _ => if pyIsSpace c || c = '>' then some (w, 4 + w.length + 1) else none
      | [] => none
  | _ => none

/-- Matcher for a closing closure event (regex of line 551). -/
def matchCloseEvent (l : List Char) : Option (List Char × Nat) :=
  match l with
  | '<' :: '/' :: 'w' :: 'r' :: '-' :: rest =>
    let (w, rest2) := wordRun rest
    if w.isEmpty then none
    else
      match rest2 with
      | '>' :: _ => some (w, 5 + w.length + 1)
      | _ => none
  | _ => none

def isQuote (c : Char) : Bool := c = '\'' || c = '"'

/-- One position of the search for a key followed by a quoted nonempty value
(regexes of lines 394 and 400): the literal key, an opening quote of either
kind, a nonempty run free of both quote characters, then a quote of either
kind. -/
def matchKeyQuotedAt (key l : List Char) : Option (List Char) :=
  if key.isPrefixOf l then
    match l.drop key.length with
    | q :: rest2 =>
      if isQuote q then
        match breakAtP isQuote rest2 with
        | (v, some _) => if v.isEmpty then none else some v
        | (_, none) => none
      else none
    | [] => none
  else none

/-- Python re.search: the leftmost position where the pattern matches. -/
def searchKeyQuoted (key : List Char) : List Char → Option (List Char)
  | [] => none
  | c :: rest =>
    match matchKeyQuotedAt key (c :: rest) with
    | some v => some v
    | none => searchKeyQuoted key rest

/-- Valid tag vocabulary, lines 329-333, in source order.  The Python value
is a set used only for membership tests, so a duplicate-free list is an
equivalent carrier. -/
def VALID_TAGS : List String :=
  ["wr-if", "wr-then", "wr-else", "wr-switch", "wr-case", "wr-default",
   "wr-for", "wr-break", "wr-variable", "wr-append", "wr-clear",
   "wr-return", "wr-error", "wr-conditional", "wr-cond", "wr-comment"]

/-- Per-tag allowed attribute lists, lines 336-353; the lookup defaults to
the empty list as dict.get does on line 498. -/
def TAG_ATTRIBUTES : String → List String
  | "wr-if" => ["condition"]
  | "wr-then" => []
  | "wr-else" => []
  | "wr-switch" => ["value"]
  | "wr-case" => ["value"]
  | "wr-default" => []
  | "wr-for" => ["list", "string", "times", "variable", "count", "index"]
  | "wr-break" => ["condition"]
  | "wr-variable" => ["name", "value"]
  | "wr-append" => ["name", "value"]
  | "wr-clear" => ["name"]
  | "wr-return" => ["value"]
  | "wr-error" => ["condition", "message"]
  | "wr-conditional" => ["condition"]
  | "wr-cond" => ["condition"]
  | "wr-comment" => []
  | _ => []

/-- Tags exempt from closing, line 357, in source order. -/
def NO_CLOSE_TAGS : List String :=
  ["wr-then", "wr-else", "wr-case", "wr-default", "wr-variable", "wr-append",
   "wr-clear", "wr-break", "wr-return", "wr-error", "wr-cond"]

/-- Method collect_list_elements, lines 385-403: list attribute values into
the list-element collection, and the variable to list pairs when both are
present.  The Python collection is a set and a dict, both used only through
membership of the former, so ordered lists are an equivalent carrier. -/
def collectListElements (content : List Char) : List String × List (String × String) :=
  (finditer matchWrFor content 0).foldl
    (fun acc m =>
      let attrs := m.2
      let listM := searchKeyQuoted "list=".toList attrs
      let varM := searchKeyQuoted "variable=".toList attrs
      let les := match listM with
        | some v => acc.1 ++ [String.mk v]
        | none => acc.1
      let lvs := match varM, listM with
        | some vn, some lv => acc.2 ++ [(String.mk vn, String.mk lv)]
        | _, _ => acc.2
      (les, lvs))
    ([], [])

/-- Diagnostics contributed by one expression span, lines 410-451: the empty
span is the escaped percent sign and is skipped; otherwise a failed parse
yields one syntax diagnostic, and every collected semantic error yields one
list-function diagnostic. -/
def spanContribution (les : List String) (content : List Char)
    (m : Nat × List Char) : List Diagnostic :=
  let off := m.1
  let e := m.2
  if e.isEmpty then []
  else
    let out := runExpressionParser (String.mk e) les
    let lc := getLineColumn content (off : Int)
    let rng : Range := ⟨⟨lc.1, lc.2⟩, ⟨lc.1, lc.2 + e.length + 2⟩⟩
    (if out.isValid then []
     else [⟨rng, 1, "Expression error: " ++ out.errMsg.getD "None", some "expr-error"⟩]) ++
    out.errors.map fun pm => ⟨rng, 1, pm.2, some "list-function-error"⟩

/-- Method validate_expressions, lines 405-451. -/
def validateExpressions (les : List String) (content : List Char) : List Diagnostic :=
  (finditer matchSpan content 0).flatMap (spanContribution les content)

/-- Diagnostics contributed by one attribute occurrence, lines 487-545: a
warning when the name is outside the allowed list of the tag, and, for a
nonempty condition value, a syntax diagnostic on a failed parse followed by
one diagnostic per semantic error.  Offsets are relative to the attribute
text, and the condition diagnostics use the value group offset, which is the
Python no-match value for a double-quoted attribute. -/
def attrContribution (les : List String) (content : List Char) (tagName : String)
    (startPos : Nat) (am : Nat × (List Char × List Char × Bool)) : List Diagnostic :=
  let aoff := am.1
  let w := am.2.1
  let v := am.2.2.1
  let sq := am.2.2.2
  let attrName := String.mk w
  let attrValue := String.mk v
  let d1 : List Diagnostic :=
    if (TAG_ATTRIBUTES tagName).contains attrName then []
    else
      let lc := getLineColumn content ((startPos + aoff : Nat) : Int)
      [⟨⟨⟨lc.1, lc.2⟩, ⟨lc.1, lc.2 + attrName.length⟩⟩, 2,
         "Unknown attribute '" ++ attrName ++ "' for tag '" ++ tagName ++ "'",
         some "unknown-attribute"⟩]
  let d2 : List Diagnostic :=
    if attrName = "condition" ∧ attrValue ≠ "" then
      let out := runExpressionParser attrValue les
      let start2 : Int :=
        if sq then (startPos : Int) + aoff + w.length + 2 else (startPos : Int) + (-1)
      let lc := getLineColumn content start2
      let rng : Range := ⟨⟨lc.1, lc.2⟩, ⟨lc.1, lc.2 + attrValue.length⟩⟩
      (if out.isValid then []
       else [⟨rng, 1, "Condition syntax error: " ++ out.errMsg.getD "None",
               some "condition-syntax-error"⟩]) ++
      out.errors.map fun pm => ⟨rng, 1, pm.2, some "list-function-error"⟩
    else []
  d1 ++ d2

/-- Diagnostics contributed by one opening tag occurrence, lines 458-478: an
unknown name yields the single unknown-tag error and the attributes are
skipped; a known name delegates to attribute validation. -/
def tagContribution (les : List String) (content : List Char)
    (m : Nat × (List Char × List Char)) : List Diagnostic :=
  let off := m.1
  let w := m.2.1
  let attrs := m.2.2
  let tagName := "wr-" ++ String.mk w
  if VALID_TAGS.contains tagName then
    (finditer matchAttrAt attrs 0).flatMap (attrContribution les content tagName off)
  else
    let lc := getLineColumn content (off : Int)
    [⟨⟨⟨lc.1, lc.2⟩, ⟨lc.1, lc.2 + tagName.length + 2⟩⟩, 1,
       "Unknown tag: " ++ tagName, some "unknown-tag"⟩]

/-- Method validate_tags, lines 453-478. -/
def validateTags (les : List String) (content : List Char) : List Diagnostic :=
  (finditer matchTag content 0).flatMap (tagContribution les content)

/-- One open or close occurrence, lines 556-562. -/
structure TagEvent where
  isOpening : Bool
  name : String
  pos : Nat
deriving DecidableEq

/-- Stable insertion by position, modelling the Python stable sort of
line 565. -/
def insertByPos (e : TagEvent) : List TagEvent → List TagEvent
  | [] => [e]
  | f :: fs => if f.pos ≤ e.pos then f :: insertByPos e fs else e :: f :: fs

def sortByPos (l : List TagEvent) : List TagEvent :=
  l.foldl (fun acc e => insertByPos e acc) []

/-- Events of both kinds collected and sorted by position, lines 553-565.
The opening events are listed before the closing events prior to sorting, as
in the source; positions of distinct events are distinct, so the stable sort
is determined by the positions alone. -/
def closureEvents (content : List Char) : List TagEvent :=
  let opens := (finditer matchOpenEvent content 0).map
    fun m => TagEvent.mk true ("wr-" ++ String.mk m.2) m.1
  let closes := (finditer matchCloseEvent content 0).map
    fun m => TagEvent.mk false ("wr-" ++ String.mk m.2) m.1
  sortByPos (opens ++ closes)

/-- Removal of the nearest matching entry, searching from the top of the
stack, lines 581-586.  The stack grows at the tail of the list, so the
search prefers a match in the tail. -/
def popNearest (stack : List (String × Nat)) (name : String) :
    Option (List (String × Nat)) :=
  match stack with
  | [] => none
  | e :: rest =>
    match popNearest rest name with
    | some rest2 => some (e :: rest2)
    | none => if e.1 = name then some rest else none

def unmatchedDiag (content : List Char) (name : String) (pos : Nat) : Diagnostic :=
  let lc := getLineColumn content (pos : Int)
  ⟨⟨⟨lc.1, lc.2⟩, ⟨lc.1, lc.2 + name.length + 3⟩⟩, 1,
    "Closing tag '" ++ name ++ "' without matching opening tag",
    some "unmatched-closing-tag"⟩

/-- Body of the event loop, lines 570-599: openings of no-close tags are
discarded, other openings are pushed; closings of no-close tags are
discarded, other closings remove the nearest matching entry or report one
unmatched-closing-tag error. -/
def closureStep (content : List Char) (acc : List (String × Nat) × List Diagnostic)
    (ev : TagEvent) : List (String × Nat) × List Diagnostic :=
  if ev.isOpening then
    if NO_CLOSE_TAGS.contains ev.name then acc
    else (acc.1 ++ [(ev.name, ev.pos)], acc.2)
  else
    if NO_CLOSE_TAGS.contains ev.name then acc
    else
      match popNearest acc.1 ev.name with
      | some stack2 => (stack2, acc.2)
      | none => (acc.1, acc.2 ++ [unmatchedDiag content ev.name ev.pos])

def unclosedDiag (content : List Char) (e : String × Nat) : Diagnostic :=
  let lc := getLineColumn content (e.2 : Int)
  ⟨⟨⟨lc.1, lc.2⟩, ⟨lc.1, lc.2 + e.1.length + 2⟩⟩, 1,
    "Unclosed tag '" ++ e.1 ++ "'", some "unclosed-tag"⟩

/-- Method validate_tag_closures, lines 547-613: fold the events through the
stack discipline, then one unclosed-tag error per entry left on the stack. -/
def validateTagClosures (content : List Char) : List Diagnostic :=
  let res := (closureEvents content).foldl (closureStep content) ([], [])
  res.2 ++ res.1.map (unclosedDiag content)

/-- State of TemplateParser, lines 359-363. -/
structure TemplateParser where
  content : String
  diagnostics : List Diagnostic
  listElements : List String
  loopVariables : List (String × String)

/-- Constructor, lines 359-363. -/
def TemplateParser.init (content : String) : TemplateParser := ⟨content, [], [], []⟩

/-- Method parse, lines 365-383: reset the per-parse state, collect the list
elements, then run the three validation passes in order and return the
concatenated diagnostics. -/
def TemplateParser.parse (tp : TemplateParser) : List Diagnostic × TemplateParser :=
  let c := tp.content.toList
  let col := collectListElements c
  let les := col.1
  let ds := validateExpressions les c ++ validateTags les c ++ validateTagClosures c
  (ds, { tp with diagnostics := ds, listElements := les, loopVariables := col.2 })

/-- Top-level entry: diagnostics of one parse of a fresh document. -/
def parseDocument (content : String) : List Diagnostic :=
  (TemplateParser.init content).parse.1

example : parseDocument "" = [] := by decide

example : parseDocument "%1 + 2%" = [] := by decide

example : parseDocument "%a>=b%" = [] := by decide

example :
    (parseDocument "<wr-foo>").map (fun d => (d.severity, d.code)) =
      [(1, some "unknown-tag"), (1, some "unclosed-tag")] := by decide

example :
    (parseDocument "<wr-for list='items' variable='x'></wr-for>%items.selectedValue()%").map
        (fun d => (d.severity, d.code)) =
      [(1, some "expr-error"), (1, some "list-function-error")] := by decide

example : parseDocument "<wr-variable name='a' value='b'>" = [] := by decide

example :
    (parseDocument "<wr-if condition='a=='>x</wr-if>").map (fun d => d.code) =
      [some "condition-syntax-error"] := by decide

/-! Claim theorems. -/

/-- C2, counterexample: the tag vocabulary does have sixteen names, but the
no-close set of line 357 has eleven pairwise distinct members, not ten, so
the claimed count of ten is false. -/
theorem c2_counterexample :
    VALID_TAGS.Nodup ∧ VALID_TAGS.length = 16 ∧
    NO_CLOSE_TAGS.Nodup ∧ NO_CLOSE_TAGS.length = 11 ∧
    ¬ NO_CLOSE_TAGS.length = 10 := by decide

/-- C2, amended: the fixed tag vocabulary contains exactly sixteen tag
names, and the fixed no-close set contains exactly eleven of those sixteen;
a no-close tag is never pushed by an opening event and never matched or
reported by a closing event. -/
theorem c2_tag_vocabulary :
    VALID_TAGS.Nodup ∧ VALID_TAGS.length = 16 ∧
    NO_CLOSE_TAGS.Nodup ∧ NO_CLOSE_TAGS.length = 11 ∧
    (∀ t ∈ NO_CLOSE_TAGS, t ∈ VALID_TAGS) ∧
    (∀ content stack diags t pos, NO_CLOSE_TAGS.contains t = true →
      closureStep content (stack, diags) ⟨true, t, pos⟩ = (stack, diags) ∧
      closureStep content (stack, diags) ⟨false, t, pos⟩ = (stack, diags)) := by
  refine ⟨by decide, by decide, by decide, by decide, by decide, ?_⟩
  intro content stack diags t pos h
  have h' : t ∈ NO_CLOSE_TAGS := by simpa [List.contains] using h
  constructor <;> simp [closureStep, h']

/-- Witness for c2_tag_vocabulary at the concrete no-close tag wr-then. -/
theorem c2_tag_vocabulary_witness :
    ("wr-then" ∈ VALID_TAGS) ∧
    closureStep [] ([("wr-if", 0)], []) ⟨true, "wr-then", 3⟩ = ([("wr-if", 0)], []) ∧
    closureStep [] ([("wr-if", 0)], []) ⟨false, "wr-then", 3⟩ = ([("wr-if", 0)], []) :=
  ⟨c2_tag_vocabulary.2.2.2.2.1 "wr-then" (by decide),
   (c2_tag_vocabulary.2.2.2.2.2 [] [("wr-if", 0)] [] "wr-then" 3 (by decide)).1,
   (c2_tag_vocabulary.2.2.2.2.2 [] [("wr-if", 0)] [] "wr-then" 3 (by decide)).2⟩

/-- C3, counterexample: for the expression items.selectedValue() with items
declared as a list element, the chain excluding the called name is the single
segment items, so it does not have more than one segment, yet the
list-misuse rule is applied and records its error. -/
theorem c3_counterexample :
    (["items", "selectedValue"] : List String).dropLast.length = 1 ∧
    (runExpressionParser "items.selectedValue()" ["items"]).errors =
      [(21, listMsg1 "selectedValue" "items")] := by decide

/-- C3, amended: when a call completes and the called name is in the
single-element function set, the list-misuse rule is applied if and only if
the element chain excluding the call name is nonempty (has at least one
segment, not more than one); when applied, the checked receiver path is the
dotted join of the chain excluding the trailing call name. -/
theorem c3_call_rule (cs : List String) (fn : String) (st : EPState)
    (h : fn ∈ SINGLE_ELEMENT_FUNCTIONS) :
    handleCall (cs ++ [fn]) st =
      if cs = [] then st else checkListFunctionCall (joinDot cs) fn st := by
  by_cases hcs : cs = []
  · subst hcs; simp [handleCall, h]
  · have hpos := List.length_pos.mpr hcs
    have hlen : 1 < (cs ++ [fn]).length := by simp; omega
    rw [if_neg hcs]
    unfold handleCall
    rw [List.getLast?_concat, List.dropLast_concat]
    simp [h, hlen, hcs]

/-- Witness for c3_call_rule: the rule fires on a one-segment receiver. -/
theorem c3_call_rule_witness :
    handleCall ["items", "selectedValue"] (initEPState "" ["items"]) =
      checkListFunctionCall "items" "selectedValue" (initEPState "" ["items"]) := by
  have h := c3_call_rule ["items"] "selectedValue" (initEPState "" ["items"]) (by decide)
  simpa [joinDot] using h

/-- C6: at every multi-operator tier the matcher tries longer spellings
before shorter ones sharing a prefix, and the document with the expression
a greater-equal b parses without diagnostics. -/
theorem c6_longest_first :
    (∀ o1 ∈ comparisonOps, ∀ o2 ∈ comparisonOps,
      o1.toList <+: o2.toList → o1 ≠ o2 →
      (sortByLenDesc comparisonOps).indexOf o2 < (sortByLenDesc comparisonOps).indexOf o1) ∧
    (∀ o1 ∈ additiveOps, ∀ o2 ∈ additiveOps,
      o1.toList <+: o2.toList → o1 ≠ o2 →
      (sortByLenDesc additiveOps).indexOf o2 < (sortByLenDesc additiveOps).indexOf o1) ∧
    (∀ o1 ∈ multiplicativeOps, ∀ o2 ∈ multiplicativeOps,
      o1.toList <+: o2.toList → o1 ≠ o2 →
      (sortByLenDesc multiplicativeOps).indexOf o2 < (sortByLenDesc multiplicativeOps).indexOf o1) ∧
    parseDocument "%a>=b%" = [] := by decide

/-- Witness for c6_longest_first at the prefix pair of less-than and
less-equal. -/
theorem c6_longest_first_witness :
    (sortByLenDesc comparisonOps).indexOf "<=" < (sortByLenDesc comparisonOps).indexOf "<" :=
  c6_longest_first.1 "<" (by decide) "<=" (by decide) (by decide) (by decide)

/-- C9: the parse method resets the per-parse state before validating, so
running it a second time on the unmodified document yields the identical
diagnostic list in the identical order. -/
theorem c9_idempotent (content : String) :
    ((TemplateParser.init content).parse.2).parse.1 =
      (TemplateParser.init content).parse.1 := rfl

/-- The canonical list-misuse document of the spec: a list-producing tag
declaring the path items, followed by a span calling selectedValue on it. -/
def c1doc : String :=
  "<wr-for list='items' variable='x'></wr-for>%items.selectedValue()%"

/-- C1, counterexample: the document does declare the list path items, yet
its parse result does not contain exactly one Error diagnostic; the span
produces an expr-error and a list-function-error, two Errors. -/
theorem c1_counterexample :
    (collectListElements c1doc.toList).1 = ["items"] ∧
    ¬ ((parseDocument c1doc).countP (fun d => d.severity == 1) = 1) := by decide

/-- C1, amended: the parse result contains exactly two Error diagnostics,
one expr-error and one list-function-error, and the message of every
diagnostic of the result mentions both the path items and the function name
selectedValue. -/
theorem c1_list_misuse_diagnostics :
    (parseDocument c1doc).countP (fun d => d.severity == 1) = 2 ∧
    (parseDocument c1doc).map (fun d => d.code) =
      [some "expr-error", some "list-function-error"] ∧
    ∀ d ∈ parseDocument c1doc, d.severity = 1 ∧
      "items".toList <:+: d.message.toList ∧
      "selectedValue".toList <:+: d.message.toList := by decide

/-- C7: tag validation processes each opening tag occurrence independently,
and an occurrence whose name is outside the vocabulary contributes exactly
the single unknown-tag Error, with no attribute diagnostics; the spec
example document has exactly one unknown-tag diagnostic. -/
theorem c7_unknown_tag :
    (∀ les content, validateTags les content =
      (finditer matchTag content 0).flatMap (tagContribution les content)) ∧
    (∀ les content off w attrs, ("wr-" ++ String.mk w) ∉ VALID_TAGS →
      tagContribution les content (off, (w, attrs)) =
        [⟨⟨⟨(getLineColumn content (off : Int)).1, (getLineColumn content (off : Int)).2⟩,
           ⟨(getLineColumn content (off : Int)).1,
             (getLineColumn content (off : Int)).2 + ("wr-" ++ String.mk w).length + 2⟩⟩,
          1, "Unknown tag: " ++ ("wr-" ++ String.mk w), some "unknown-tag"⟩]) ∧
    (parseDocument "<wr-foo>").countP (fun d => d.code == some "unknown-tag") = 1 := by
  refine ⟨fun les content => rfl, ?_, by decide⟩
  intro les content off w attrs h
  simp [tagContribution, h]

/-- Witness for c7_unknown_tag at the unrecognized tag wr-foo. -/
theorem c7_unknown_tag_witness :
    tagContribution [] "<wr-foo>".toList (0, ("foo".toList, [])) =
      [⟨⟨⟨0, 0⟩, ⟨0, 8⟩⟩, 1, "Unknown tag: wr-foo", some "unknown-tag"⟩] := by
  rw [c7_unknown_tag.2.1 [] "<wr-foo>".toList 0 "foo".toList [] (by decide)]
  rfl

/-- The left output of breakAtP never satisfies the break predicate. -/
theorem breakAtP_cons_neg (p : Char → Bool) (a : Char) (rest : List Char)
    (hp : p a = false) :
    breakAtP p (a :: rest) = (a :: (breakAtP p rest).1, (breakAtP p rest).2) := by
  rcases hX : breakAtP p rest with ⟨b, r⟩
  simp [breakAtP, hp, hX]

theorem breakAtP_fst_not (p : Char → Bool) :
    ∀ l c, c ∈ (breakAtP p l).1 → p c = false := by
  intro l
  induction l with
  | nil => intro c hc; simp [breakAtP] at hc
  | cons a rest ih =>
    intro c hc
    by_cases hp : p a = true
    · simp [breakAtP, hp] at hc
    · rw [breakAtP_cons_neg p a rest (by simpa using hp)] at hc
      rcases List.mem_cons.mp hc with h1 | h2
      · subst h1; simpa using hp
      · exact ih c h2

/-- Payload invariant of the generic scanner: whatever the matcher
guarantees of its payload holds of every emitted payload. -/
theorem finditerF_payload {α : Type} (m : List Char → Option (α × Nat))
    (P : α → Prop) (hm : ∀ l a n, m l = some (a, n) → P a) :
    ∀ fuel l off pa, pa ∈ finditerF m fuel l off → P pa.2 := by
  intro fuel
  induction fuel with
  | zero => intro l off pa h; simp [finditerF] at h
  | succ fuel ih =>
    intro l off pa h
    match l with
    | [] => simp [finditerF] at h
    | c :: rest =>
      rcases hmc : m (c :: rest) with _ | ⟨a, n⟩
      · rw [finditerF, hmc] at h
        exact ih rest (off + 1) pa h
      · rw [finditerF, hmc] at h
        rcases List.mem_cons.mp h with h1 | h2
        · subst h1; exact hm (c :: rest) a n hmc
        · exact ih (rest.drop (n - 1)) (off + n) pa h2

/-- The payload of the span matcher is free of the percent character. -/
theorem matchSpan_payload :
    ∀ l a n, matchSpan l = some (a, n) → ('%' : Char) ∉ a := by
  intro l a n h
  unfold matchSpan at h
  split at h
  · rename_i rest
    rcases hX : breakAtP (fun c => c = '%') rest with ⟨run, ro⟩
    rw [hX] at h
    rcases ro with _ | r
    · cases h
    · simp at h
      obtain ⟨ha, hn⟩ := h
      subst ha
      intro hmem
      have hx := breakAtP_fst_not (fun c => decide (c = '%')) rest '%' (by
        rw [hX]; exact hmem)
      simp at hx
  · cases h

/-- C10: every span handed to the expression validator is free of the
percent character; the modulo spelling is part of the multiplicative tier;
stripping cannot introduce a percent character; and the operator matcher
never matches the modulo spelling against an expression without one. -/
theorem c10_no_modulo_in_spans :
    (∀ content off e, (off, e) ∈ finditer matchSpan content 0 → ('%' : Char) ∉ e) ∧
    ("%" ∈ multiplicativeOps) ∧
    (∀ e : List Char, ('%' : Char) ∉ e → ('%' : Char) ∉ pyStrip e) ∧
    (∀ st : EPState, ('%' : Char) ∉ st.expr → (matchOperator "%" st).1 = false) := by
  refine ⟨?_, by decide, ?_, ?_⟩
  · intro content off e h
    exact finditerF_payload matchSpan (fun a => ('%' : Char) ∉ a) matchSpan_payload
      (content.length + 1) content 0 (off, e) h
  · intro e h hmem
    apply h
    have h1 : ('%' : Char) ∈ (e.dropWhile pyIsSpace).reverse.dropWhile pyIsSpace := by
      simpa [pyStrip] using hmem
    have h2 := (List.dropWhile_sublist pyIsSpace).subset h1
    have h3 : ('%' : Char) ∈ e.dropWhile pyIsSpace := by simpa using h2
    exact (List.dropWhile_sublist pyIsSpace).subset h3
  · intro st h
    have key : ¬ (((skipWs st).expr.drop (skipWs st).pos).take "%".toList.length =
        "%".toList) := by
      intro hq
      apply h
      have h1 : ('%' : Char) ∈ ((skipWs st).expr.drop (skipWs st).pos).take
          "%".toList.length := by
        rw [hq]; decide
      have h2 := List.take_subset _ _ h1
      have h3 := List.drop_subset _ _ h2
      simpa [skipWs] using h3
    unfold matchOperator
    rw [if_neg key]

/-- Witness for c10_no_modulo_in_spans on the single-span document and a
concrete state. -/
theorem c10_no_modulo_in_spans_witness :
    (('%' : Char) ∉ (['a'] : List Char)) ∧
    (('%' : Char) ∉ pyStrip ['a']) ∧
    (matchOperator "%" ⟨['a'], [], [], 0⟩).1 = false :=
  ⟨c10_no_modulo_in_spans.1 "%a%".toList 0 ['a'] (by decide),
   c10_no_modulo_in_spans.2.2.1 ['a'] (by decide),
   c10_no_modulo_in_spans.2.2.2 ⟨['a'], [], [], 0⟩ (by decide)⟩

/-- A name absent from the stack is never found by the backward search. -/
theorem popNearest_not_found (stack : List (String × Nat)) (name : String)
    (h : name ∉ stack.map Prod.fst) : popNearest stack name = none := by
  induction stack with
  | nil => rfl
  | cons e rest ih =>
    have h2 : name ≠ e.1 ∧ name ∉ rest.map Prod.fst := by
      simpa [not_or] using h
    simp [popNearest, ih h2.2, Ne.symm h2.1]

/-- The backward search removes the nearest matching entry: with the stack
top at the tail, entries above the match are untouched. -/
theorem popNearest_found (l1 l2 : List (String × Nat)) (name : String) (p : Nat)
    (h : name ∉ l2.map Prod.fst) :
    popNearest (l1 ++ (name, p) :: l2) name = some (l1 ++ l2) := by
  induction l1 with
  | nil => simp [popNearest, popNearest_not_found l2 name h]
  | cons e rest ih => simp [popNearest, ih]

/-- C5: a closing event of a tag outside the no-close set removes the
nearest same-named entry searching from the most recently opened end,
leaving the non-matching entries above it; with no same-named entry it
appends exactly one unmatched-closing-tag Error and leaves the stack
unchanged; and after the event fold every surviving entry yields exactly
one unclosed-tag Error. -/
theorem c5_closure_stack :
    (∀ content l1 l2 name p pos diags, name ∉ NO_CLOSE_TAGS →
      name ∉ l2.map Prod.fst →
      closureStep content (l1 ++ (name, p) :: l2, diags) ⟨false, name, pos⟩ =
        (l1 ++ l2, diags)) ∧
    (∀ content stack diags name pos, name ∉ NO_CLOSE_TAGS →
      name ∉ stack.map Prod.fst →
      closureStep content (stack, diags) ⟨false, name, pos⟩ =
        (stack, diags ++ [unmatchedDiag content name pos])) ∧
    (∀ content, validateTagClosures content =
      ((closureEvents content).foldl (closureStep content) ([], [])).2 ++
        ((closureEvents content).foldl (closureStep content) ([], [])).1.map
          (unclosedDiag content)) ∧
    (∀ content e, (unclosedDiag content e).severity = 1 ∧
      (unclosedDiag content e).code = some "unclosed-tag") := by
  refine ⟨?_, ?_, fun content => rfl, fun content e => ⟨rfl, rfl⟩⟩
  · intro content l1 l2 name p pos diags hnc hl2
    simp [closureStep, hnc, popNearest_found l1 l2 name p hl2]
  · intro content stack diags name pos hnc hst
    simp [closureStep, hnc, popNearest_not_found stack name hst]

/-- A structural parse failure of the expression grammar is caught by the
try block of parse and reported through the returned flag, never
propagated. -/
theorem structuralFailure_isValid (expression : String) (les : List String)
    (h : structuralFailureB expression les = true) :
    (runExpressionParser expression les).isValid = false := by
  simp only [structuralFailureB] at h
  simp only [runExpressionParser]
  by_cases he : (initEPState expression les).expr.isEmpty
  · rw [if_pos he] at h; cases h
  · rw [if_neg he] at h
    rw [if_neg he]
    rcases hp : parseExprF (exprFuel (initEPState expression les).expr)
        (initEPState expression les) with ⟨a, st⟩ | ⟨m, st⟩
    · rw [hp] at h; exact Bool.noConfusion h
    · rfl

/-- A structural failure presupposes a nonempty stripped expression, so the
raw span characters cannot be empty. -/
theorem structuralFailure_ne_nil (e : List Char) (les : List String)
    (h : structuralFailureB (String.mk e) les = true) : e.isEmpty = false := by
  rcases e with _ | ⟨c, rest⟩
  · rw [show structuralFailureB (String.mk []) les = false from rfl] at h
    cases h
  · rfl

/-- C4: no failure escapes: a structural parse failure inside one expression
is converted into the invalid flag; the expression pass is the independent
concatenation of the per-span diagnostics, so the remaining spans are still
validated; a structurally failing span contributes exactly one expr-error
diagnostic, and a structurally failing nonempty condition value contributes
exactly one condition-syntax-error diagnostic; the tag pass is likewise the
independent concatenation of per-occurrence diagnostics. -/
theorem c4_failure_containment :
    (∀ expression les, structuralFailureB expression les = true →
      (runExpressionParser expression les).isValid = false) ∧
    (∀ les content, validateExpressions les content =
      (finditer matchSpan content 0).flatMap (spanContribution les content)) ∧
    (∀ les content off e, structuralFailureB (String.mk e) les = true →
      (spanContribution les content (off, e)).countP
        (fun d => d.code == some "expr-error") = 1) ∧
    (∀ les content tagName startPos aoff w v sq,
      String.mk w = "condition" → String.mk v ≠ "" →
      structuralFailureB (String.mk v) les = true →
      (attrContribution les content tagName startPos (aoff, (w, v, sq))).countP
        (fun d => d.code == some "condition-syntax-error") = 1) ∧
    (∀ les content, validateTags les content =
      (finditer matchTag content 0).flatMap (tagContribution les content)) := by
  refine ⟨structuralFailure_isValid, fun les content => rfl, ?_, ?_, fun les content => rfl⟩
  · intro les content off e h
    have hval := structuralFailure_isValid (String.mk e) les h
    have hne := structuralFailure_ne_nil e les h
    simp only [spanContribution]
    rw [if_neg (by simp [hne])]
    rw [List.countP_append]
    simp [hval, List.countP_map, Function.comp]
  · intro les content tagName startPos aoff w v sq hw hv h
    have hval := structuralFailure_isValid (String.mk v) les h
    simp only [attrContribution]
    rw [List.countP_append]
    have h2 : (if (TAG_ATTRIBUTES tagName).contains (String.mk w) then ([] : List Diagnostic)
        else [⟨⟨⟨(getLineColumn content ((startPos + aoff : Nat) : Int)).1,
                 (getLineColumn content ((startPos + aoff : Nat) : Int)).2⟩,
               ⟨(getLineColumn content ((startPos + aoff : Nat) : Int)).1,
                 (getLineColumn content ((startPos + aoff : Nat) : Int)).2 +
                   (String.mk w).length⟩⟩, 2,
              "Unknown attribute '" ++ String.mk w ++ "' for tag '" ++ tagName ++ "'",
              some "unknown-attribute"⟩]).countP
        (fun d => d.code == some "condition-syntax-error") = 0 := by
      by_cases hc : (TAG_ATTRIBUTES tagName).contains (String.mk w) <;> simp [hc]
    rw [h2]
    rw [if_pos ⟨hw, hv⟩]
    simp [hval, List.countP_map, Function.comp]

/-- Witness for c4_failure_containment at two concrete structural
failures: a truncated sum in a span and a truncated comparison in a
condition attribute. -/
theorem c4_failure_containment_witness :
    structuralFailureB "a+" [] = true ∧
    (runExpressionParser "a+" []).isValid = false ∧
    (spanContribution [] "%a+%".toList (0, "a+".toList)).countP
      (fun d => d.code == some "expr-error") = 1 ∧
    (attrContribution [] "<wr-if condition='a=='>".toList "wr-if" 0
        (1, ("condition".toList, "a==".toList, true))).countP
      (fun d => d.code == some "condition-syntax-error") = 1 :=
  ⟨by decide,
   c4_failure_containment.1 "a+" [] (by decide),
   c4_failure_containment.2.2.1 [] "%a+%".toList 0 "a+".toList (by decide),
   c4_failure_containment.2.2.2.1 [] "<wr-if condition='a=='>".toList "wr-if" 0 1
     "condition".toList "a==".toList true (by decide) (by decide) (by decide)⟩

/-- Witness for c5_closure_stack: an interleaved close removes the nearest
match and keeps the entry above it; a close without a match reports once. -/
theorem c5_closure_stack_witness :
    closureStep [] ([("wr-if", 0), ("wr-for", 5), ("wr-switch", 9)], [])
        ⟨false, "wr-for", 20⟩ = ([("wr-if", 0), ("wr-switch", 9)], []) ∧
    closureStep [] ([("wr-if", 0)], []) ⟨false, "wr-for", 20⟩ =
      ([("wr-if", 0)], [unmatchedDiag [] "wr-for" 20]) :=
  ⟨by
    have h := c5_closure_stack.1 [] [("wr-if", 0)] [("wr-switch", 9)] "wr-for" 5 20 []
      (by decide) (by decide)
    simpa using h,
   by
    have h := c5_closure_stack.2.1 [] [("wr-if", 0)] [] "wr-for" 20 (by decide) (by decide)
    simpa using h⟩

/-- Severity and code discipline shared by every emitted diagnostic: only
severities one and two occur, and two exactly for the unknown-attribute
warning. -/
def diagOk (d : Diagnostic) : Prop :=
  (d.severity = 1 ∨ d.severity = 2) ∧ (d.severity = 2 ↔ d.code = some "unknown-attribute")

theorem diagOk_sev1 (rng : Range) (msg : String) (c : Option String)
    (hc : c ≠ some "unknown-attribute") : diagOk ⟨rng, 1, msg, c⟩ := by
  refine ⟨Or.inl rfl, ⟨?_, ?_⟩⟩
  · intro hx; simp at hx
  · intro hx; exact absurd hx hc

theorem diagOk_warn (rng : Range) (msg : String) :
    diagOk ⟨rng, 2, msg, some "unknown-attribute"⟩ := ⟨Or.inr rfl, by simp⟩

theorem spanContribution_diagOk (les : List String) (content : List Char)
    (m : Nat × List Char) : ∀ d ∈ spanContribution les content m, diagOk d := by
  intro d hd
  simp only [spanContribution] at hd
  split at hd
  · simp at hd
  · rcases List.mem_append.mp hd with h1 | h2
    · split at h1
      · simp at h1
      · rw [List.mem_singleton] at h1
        subst h1
        exact diagOk_sev1 _ _ _ (by decide)
    · rcases List.mem_map.mp h2 with ⟨pm, hpm, hcast⟩
      subst hcast
      exact diagOk_sev1 _ _ _ (by decide)

theorem attrContribution_diagOk (les : List String) (content : List Char)
    (tagName : String) (startPos : Nat) (am : Nat × (List Char × List Char × Bool)) :
    ∀ d ∈ attrContribution les content tagName startPos am, diagOk d := by
  intro d hd
  simp only [attrContribution] at hd
  rcases List.mem_append.mp hd with h1 | h2
  · split at h1
    · simp at h1
    · rw [List.mem_singleton] at h1
      subst h1
      exact diagOk_warn _ _
  · split at h2
    · rcases List.mem_append.mp h2 with h3 | h4
      · split at h3
        · simp at h3
        · rw [List.mem_singleton] at h3
          subst h3
          exact diagOk_sev1 _ _ _ (by decide)
      · rcases List.mem_map.mp h4 with ⟨pm, hpm, hcast⟩
        subst hcast
        exact diagOk_sev1 _ _ _ (by decide)
    · simp at h2

theorem tagContribution_diagOk (les : List String) (content : List Char)
    (m : Nat × (List Char × List Char)) :
    ∀ d ∈ tagContribution les content m, diagOk d := by
  intro d hd
  simp only [tagContribution] at hd
  split at hd
  · rcases List.mem_flatMap.mp hd with ⟨am, ham, hdm⟩
    exact attrContribution_diagOk les content _ _ am d hdm
  · rw [List.mem_singleton] at hd
    subst hd
    exact diagOk_sev1 _ _ _ (by decide)

/-- The event step either keeps the diagnostics or appends the single
unmatched-closing-tag error. -/
theorem closureStep_diags (content : List Char)
    (acc : List (String × Nat) × List Diagnostic) (ev : TagEvent) :
    (closureStep content acc ev).2 = acc.2 ∨
    (closureStep content acc ev).2 = acc.2 ++ [unmatchedDiag content ev.name ev.pos] := by
  simp only [closureStep]
  by_cases ho : ev.isOpening = true
  · by_cases hc : ev.name ∈ NO_CLOSE_TAGS <;> simp [ho, hc]
  · by_cases hc : ev.name ∈ NO_CLOSE_TAGS
    · simp [ho, hc]
    · rcases hp : popNearest acc.1 ev.name with _ | s2 <;> simp [ho, hc, hp]

theorem closureFold_diagOk (content : List Char) :
    ∀ (evs : List TagEvent) (acc : List (String × Nat) × List Diagnostic),
      (∀ d ∈ acc.2, diagOk d) →
      ∀ d ∈ (evs.foldl (closureStep content) acc).2, diagOk d := by
  intro evs
  induction evs with
  | nil => intro acc hacc d hd; exact hacc d hd
  | cons ev rest ih =>
    intro acc hacc d hd
    refine ih (closureStep content acc ev) ?_ d hd
    intro d2 hd2
    rcases closureStep_diags content acc ev with he | he
    · rw [he] at hd2; exact hacc d2 hd2
    · rw [he] at hd2
      rcases List.mem_append.mp hd2 with h1 | h2
      · exact hacc d2 h1
      · rw [List.mem_singleton] at h2
        subst h2
        exact diagOk_sev1 _ _ _ (by decide)

theorem validateTagClosures_diagOk (content : List Char) :
    ∀ d ∈ validateTagClosures content, diagOk d := by
  intro d hd
  simp only [validateTagClosures] at hd
  rcases List.mem_append.mp hd with h1 | h2
  · exact closureFold_diagOk content (closureEvents content) ([], []) (by simp) d h1
  · rcases List.mem_map.mp h2 with ⟨e, he, hcast⟩
    subst hcast
    exact diagOk_sev1 _ _ _ (by decide)

theorem parseDocument_diagOk (content : String) :
    ∀ d ∈ parseDocument content, diagOk d := by
  intro d hd
  have hd' : d ∈
      (validateExpressions (collectListElements content.toList).1 content.toList ++
        validateTags (collectListElements content.toList).1 content.toList) ++
      validateTagClosures content.toList := hd
  rcases List.mem_append.mp hd' with h12 | h3
  · rcases List.mem_append.mp h12 with h1 | h2
    · simp only [validateExpressions] at h1
      rcases List.mem_flatMap.mp h1 with ⟨mm, hmm, hdm⟩
      exact spanContribution_diagOk _ _ mm d hdm
    · simp only [validateTags] at h2
      rcases List.mem_flatMap.mp h2 with ⟨mm, hmm, hdm⟩
      exact tagContribution_diagOk _ _ mm d hdm
  · exact validateTagClosures_diagOk _ d h3

/-- C8: every diagnostic of every parse has severity one or two, and
severity two exactly when it is the unknown-attribute warning; every other
kind carries severity one. -/
theorem c8_severity_discipline (content : String) (d : Diagnostic)
    (hd : d ∈ parseDocument content) :
    (d.severity = 1 ∨ d.severity = 2) ∧
    (d.severity = 2 ↔ d.code = some "unknown-attribute") :=
  parseDocument_diagOk content d hd

/-- Witness for c8_severity_discipline at the unknown-tag diagnostic of the
document with the single unrecognized tag. -/
theorem c8_severity_discipline_witness :
    ((⟨⟨⟨0, 0⟩, ⟨0, 8⟩⟩, 1, "Unknown tag: wr-foo",
        some "unknown-tag"⟩ : Diagnostic).severity = 1 ∨
      (⟨⟨⟨0, 0⟩, ⟨0, 8⟩⟩, 1, "Unknown tag: wr-foo",
        some "unknown-tag"⟩ : Diagnostic).severity = 2) ∧
    ((⟨⟨⟨0, 0⟩, ⟨0, 8⟩⟩, 1, "Unknown tag: wr-foo",
        some "unknown-tag"⟩ : Diagnostic).severity = 2 ↔
      (⟨⟨⟨0, 0⟩, ⟨0, 8⟩⟩, 1, "Unknown tag: wr-foo",
        some "unknown-tag"⟩ : Diagnostic).code = some "unknown-attribute") :=
  c8_severity_discipline "<wr-foo>"
    ⟨⟨⟨0, 0⟩, ⟨0, 8⟩⟩, 1, "Unknown tag: wr-foo", some "unknown-tag"⟩ (by decide)

end WR
